import Mathlib

/-!
Verification of the PydanticPrompt repository (src/pydantic_prompt/core.py).

The development shallowly embeds the three helpers and the decorator of
`core.py`:

* `get_field_type_name`  — embeds `_get_field_type_name` (core.py lines 106-159);
* `extract_field_docstring` — embeds `_extract_field_docstring` (lines 70-103);
* `format_for_llm`       — embeds the `format_for_llm` classmethod (lines 12-62);
* `llm_documented`       — embeds the decorator (lines 8-67).

Python strings are modelled by `String`; `str.find`, slicing, `str.strip`,
`str.endswith`, `str.replace` and `str.lower` are reimplemented over the
character list so that every definition evaluates inside the kernel.
A Python expression that can raise an uncaught exception is modelled with
`Option` (`none` = the call raises to the caller).
-/

/-- The apostrophe character, written numerically. -/
def apos : String := String.mk [Char.ofNat 39]

/-- The three-character delimiter made of double quotes. -/
def tripleDouble : String := String.mk (List.replicate 3 (Char.ofNat 34))

/-- The three-character delimiter made of single quotes. -/
def tripleSingle : String := String.mk (List.replicate 3 (Char.ofNat 39))

/-- Python `s.find(sub, start)`: index of the first occurrence of `sub` at or
after `start`, `none` when absent (Python returns `-1`). -/
def pyFind (s sub : String) (start : Nat) : Option Nat :=
  (List.range (s.data.length + 1)).find?
    (fun i => decide (start ≤ i) && sub.data.isPrefixOf (s.data.drop i))

/-- Python slice `s[a:b]` (for `0 ≤ a`, `0 ≤ b`). -/
def pySlice (s : String) (a b : Nat) : String :=
  String.mk ((s.data.drop a).take (b - a))

/-- Python `s.strip()`: remove leading and trailing whitespace. -/
def pyStrip (s : String) : String :=
  String.mk (((s.data.dropWhile Char.isWhitespace).reverse.dropWhile
    Char.isWhitespace).reverse)

/-- Python `s.endswith(post)`. -/
def pyEndsWith (s post : String) : Bool :=
  post.data.isSuffixOf s.data

/-- Python `sub in s` (substring containment). -/
def pyContains (s sub : String) : Bool :=
  (pyFind s sub 0).isSome

/-- Python `s.replace(pat, rep)` on character lists: replace every
non-overlapping occurrence, scanning left to right. -/
def replaceAll (pat rep : List Char) : List Char → List Char
  | [] => []
  | c :: rest =>
    if pat.isPrefixOf (c :: rest) && !pat.isEmpty then
      rep ++ replaceAll pat rep (rest.drop (pat.length - 1))
    else
      c :: replaceAll pat rep rest
termination_by l => l.length
decreasing_by
  · simp only [List.length_cons, List.length_drop]
    omega
  · simp only [List.length_cons]
    omega

/-- Python `str(x).replace("typing.", "")`, the namespace-prefix stripping
used by `_get_field_type_name`. -/
def stripTyping (s : String) : String :=
  String.mk (replaceAll ("typing.".data) [] s.data)

/-- Python `s.lower()` (ASCII). -/
def lowerStr (s : String) : String :=
  String.mk (s.data.map Char.toLower)

/-- The camelCase→snake_case conversion of core.py line 44:
`''.join(['_' + c.lower() if c.isupper() else c for c in key]).lstrip('_')`. -/
def toSnake (key : String) : String :=
  String.mk
    (((key.data.map (fun c => if c.isUpper then ['_', Char.toLower c] else [c])).flatten).dropWhile
      (fun c => c = '_'))

/-- The origin of a parameterized generic annotation, as returned by
`typing.get_origin`: `typing.Union`, builtin `list`, builtin `dict`, or any
other object carrying an optional `__name__` and a `str()` form. -/
inductive PyOrigin where
  | union
  | plist
  | pdict
  | other (nm : Option String) (strForm : String)
deriving DecidableEq

/-- A Python type annotation as `_get_field_type_name` observes it:
a plain class (`isinstance(a, type)` with a `__name__`), `type(None)`,
a parameterized generic (an origin plus `typing.get_args`), or any other
object with only a `str()` form (e.g. a TypeVar or a string annotation). -/
inductive PyAnnot where
  | plain (nm : String)
  | noneType
  | generic (origin : PyOrigin) (args : List PyAnnot)
  | other (strForm : String)

/-- `arg is type(None)`. -/
def isNoneAnnot : PyAnnot → Bool
  | PyAnnot.noneType => true
  | _ => false

/-- `isinstance(a, type)`. Parameterized typing generics are not types. -/
def isInstanceType : PyAnnot → Bool
  | PyAnnot.plain _ => true
  | PyAnnot.noneType => true
  | _ => false

/-- `hasattr(a, "__name__")` for annotation objects: classes have a name;
the modelled typing aliases and string forms do not. -/
def hasDunderName : PyAnnot → Bool
  | PyAnnot.plain _ => true
  | PyAnnot.noneType => true
  | _ => false

/-- `a.__name__` where it exists. -/
def typeDunderName : PyAnnot → String
  | PyAnnot.plain nm => nm
  | PyAnnot.noneType => "NoneType"
  | _ => ""

/-- `str(origin)` for the modelled origins. -/
def originStr : PyOrigin → String
  | PyOrigin.union => "typing.Union"
  | PyOrigin.plist => "<class " ++ apos ++ "list" ++ apos ++ ">"
  | PyOrigin.pdict => "<class " ++ apos ++ "dict" ++ apos ++ ">"
  | PyOrigin.other _ s => s

/-- `origin.__name__` when `hasattr(origin, "__name__")`. -/
def pyOriginName : PyOrigin → Option String
  | PyOrigin.union => none
  | PyOrigin.plist => some "list"
  | PyOrigin.pdict => some "dict"
  | PyOrigin.other nm _ => nm

mutual

/-- `str(a)` for an annotation object. -/
def pyStr : PyAnnot → String
  | PyAnnot.plain nm => "<class " ++ apos ++ nm ++ apos ++ ">"
  | PyAnnot.noneType => "<class " ++ apos ++ "NoneType" ++ apos ++ ">"
  | PyAnnot.other s => s
  | PyAnnot.generic o args =>
    (match pyOriginName o with
      | some nm => nm
      | none => originStr o) ++ "[" ++ String.intercalate ", " (pyStrList args) ++ "]"

/-- `str` applied to each element of an argument list. -/
def pyStrList : List PyAnnot → List String
  | [] => []
  | x :: xs => pyStr x :: pyStrList xs

end

/-- The `Optional` unwrapping of core.py lines 111-117: when
`get_origin(a) is Union and type(None) in get_args(a)`, replace the
annotation by the first argument that is not `type(None)`. -/
def unwrapOptional (a : PyAnnot) : PyAnnot :=
  match a with
  | PyAnnot.generic PyOrigin.union args =>
    if args.any isNoneAnnot then
      match args.find? (fun x => !isNoneAnnot x) with
      | some t => t
      | none => PyAnnot.generic PyOrigin.union args
    else PyAnnot.generic PyOrigin.union args
  | x => x

/-- Core.py lines 119-159, the classification applied after the `Optional`
unwrap.  `none` models an uncaught `IndexError`: the list branch evaluates
`args[0]` and the dict branch `args[0]`/`args[1]`, which raise when
`get_args` returned too few arguments (e.g. for a bare `typing.List`). -/
def tailName (a : PyAnnot) : Option String :=
  if isInstanceType a then
    some (typeDunderName a)
  else
    match a with
    | PyAnnot.generic origin args =>
      if (origin == PyOrigin.plist) || pyEndsWith (originStr origin) "list" then
        match args with
        | [] => none
        | arg_type :: _ =>
          let arg_nm :=
            if hasDunderName arg_type then typeDunderName arg_type
            else stripTyping (pyStr arg_type)
          some ("list[" ++ arg_nm ++ "]")
      else if (origin == PyOrigin.pdict) || pyEndsWith (originStr origin) "dict" then
        match args with
        | key_type :: val_type :: _ =>
          let key_nm :=
            if hasDunderName key_type then typeDunderName key_type else pyStr key_type
          let val_nm :=
            if hasDunderName val_type then typeDunderName val_type else pyStr val_type
          some ("dict[" ++ key_nm ++ ", " ++ val_nm ++ "]")
        | _ => none
      else
        let origin_nm :=
          lowerStr (match pyOriginName origin with
            | some nm => nm
            | none => originStr origin)
        let arg_strs := args.map (fun arg =>
          if hasDunderName arg then typeDunderName arg else stripTyping (pyStr arg))
        some (origin_nm ++ "[" ++ String.intercalate ", " arg_strs ++ "]")
    | x => some (stripTyping (pyStr x))

/-- Per-field metadata as `format_for_llm` reads it off pydantic:
the declared annotation and `field_info.is_required()`. -/
structure FieldInfo where
  ann : PyAnnot
  required : Bool

/-- `_get_field_type_name` (core.py lines 106-159). -/
def get_field_type_name (field_info : FieldInfo) : Option String :=
  tailName (unwrapOptional field_info.ann)

/-- A model class as `format_for_llm` reads it off pydantic:
`cls.__name__`, `cls.model_fields` in declaration order, the result of
`inspect.getsource(cls)` (`none` when `getsource` raises), and the
`properties` mapping of `cls.model_json_schema()`.  Per-field schema
entries map JSON-schema keywords to the `str()` form of their values. -/
structure ModelClass where
  nm : String
  fields : List (String × FieldInfo)
  src : Option String
  schemaProperties : List (String × List (String × String))

/-- The pattern loop of core.py lines 75-90: the first of the patterns
`"<field>:"`, `"<field> :"`, `"<field> ="` (in that priority order) that
occurs anywhere in the source, searched from position 0. -/
def findFieldPos (source : String) (field_nm : String) : Option Nat :=
  [field_nm ++ ":", field_nm ++ " :", field_nm ++ " ="].findSome?
    (fun pat => pyFind source pat 0)

/-- The quote loop of core.py lines 93-98: for each delimiter in turn, find
an opening occurrence at or after `field_pos`; if it has a closing
occurrence, return the stripped text in between, otherwise try the next
delimiter; return `""` after the loop. -/
def searchQuotes (source : String) (field_pos : Nat) : List String → String
  | [] => ""
  | quote :: rest =>
    match pyFind source quote field_pos with
    | some doc_start =>
      match pyFind source quote (doc_start + 3) with
      | some doc_end => pyStrip (pySlice source (doc_start + 3) doc_end)
      | none => searchQuotes source field_pos rest
    | none => searchQuotes source field_pos rest

/-- `_extract_field_docstring` (core.py lines 70-103).  A `none` source
models `inspect.getsource` raising; the surrounding `try` absorbs it. -/
def extract_field_docstring (source : Option String) (field_nm : String) : String :=
  match source with
  | none => ""
  | some source =>
    match findFieldPos source field_nm with
    | none => ""
    | some field_pos => searchQuotes source field_pos [tripleDouble, tripleSingle]

/-- The constraint loop of core.py lines 39-55: walk the fixed recognition
list, keep the keys present in the field schema, and render each as
`"<display key>: <value>"`.  Lines 46-53: `minimum` displays as `ge` and
`maximum` as `le` (both truthiness branches coincide in the source);
`min_length` and `max_length` map to themselves. -/
def displayKey (field_schema : List (String × String)) (ds : String) : String :=
  if ds = "minimum" then
    (if (List.lookup "exclusiveMinimum" field_schema).isSome then "ge" else "ge")
  else if ds = "maximum" then
    (if (List.lookup "exclusiveMaximum" field_schema).isSome then "le" else "le")
  else if ds = "min_length" then "min_length"
  else if ds = "max_length" then "max_length"
  else ds

/-- Core.py lines 39-55 continued: the ordered list of rendered
constraint strings for one field schema. -/
def renderConstraints (field_schema : List (String × String)) : List String :=
  ["minLength", "maxLength", "minimum", "maximum", "pattern"].filterMap
    (fun key =>
      match List.lookup key field_schema with
      | some v => some (displayKey field_schema (toSnake key) ++ ": " ++ v)
      | none => none)

/-- One iteration of the field loop of core.py lines 21-60: the rendered
line for one field, `none` when `_get_field_type_name` raises. -/
def formatFieldLine (properties : List (String × List (String × String)))
    (include_validation : Bool) (source : Option String)
    (nm : String) (field_info : FieldInfo) : Option String :=
  match get_field_type_name field_info with
  | none => none
  | some field_type =>
    let docstring := extract_field_docstring source nm
    let optional_str := if field_info.required then "" else ", optional"
    let field_line := "- " ++ nm ++ " (" ++ field_type ++ optional_str ++ "): " ++ docstring
    let field_line :=
      if include_validation then
        match List.lookup nm properties with
        | some field_schema =>
          let constraints := renderConstraints field_schema
          if constraints.isEmpty then field_line
          else field_line ++ " [Constraints: " ++ String.intercalate ", " constraints ++ "]"
        | none => field_line
      else field_line
    some field_line

/-- The sequential accumulation of the field loop: each iteration either
produces a line or raises, and a raise propagates out of the whole call. -/
def buildLines (f : α → Option β) : List α → Option (List β)
  | [] => some []
  | a :: as =>
    match f a with
    | none => none
    | some b =>
      match buildLines f as with
      | none => none
      | some bs => some (b :: bs)

/-- The `format_for_llm` classmethod (core.py lines 12-62): the header line
`"<ClassName>:"`, one line per field appended in declaration order, joined
with `"\n"`.  Line 17: the schema is consulted only when
`include_validation` is true, otherwise `properties` is empty. -/
def format_for_llm (cls : ModelClass) (include_validation : Bool) : Option String :=
  match buildLines
      (fun nf => formatFieldLine (if include_validation then cls.schemaProperties else [])
        include_validation cls.src nf.1 nf.2)
      cls.fields with
  | none => none
  | some lns => some (String.intercalate "\n" ((cls.nm ++ ":") :: lns))

/-- A Python class object as the decorator sees it: the model data plus the
`format_for_llm` attribute slot (absent before decoration). -/
structure PyClass where
  model : ModelClass
  format_attr : Option (ModelClass → Bool → Option String)

/-- The `llm_documented` decorator (core.py lines 8-67): set the
`format_for_llm` attribute on the class and return the class. -/
def llm_documented (c : PyClass) : PyClass :=
  { c with format_attr := some format_for_llm }

/-- Calling `C.format_for_llm(include_validation)`: `none` when the
attribute is absent, otherwise the classmethod applied to the class. -/
def callFormat (c : PyClass) (include_validation : Bool) : Option (Option String) :=
  match c.format_attr with
  | none => none
  | some f => some (f c.model include_validation)

/-- An annotation whose classification never reaches an out-of-range
argument access: after the `Optional` unwrap, a list-like origin carries at
least one argument and a dict-like origin at least two.  (A bare
`typing.List` or `typing.Dict` violates this.) -/
def wellFormedAnn (a : PyAnnot) : Bool :=
  match unwrapOptional a with
  | PyAnnot.generic origin args =>
    if (origin == PyOrigin.plist) || pyEndsWith (originStr origin) "list" then
      !args.isEmpty
    else if (origin == PyOrigin.pdict) || pyEndsWith (originStr origin) "dict" then
      decide (2 ≤ args.length)
    else true
  | _ => true

/-! Concrete model classes used by the witnesses and counterexamples. -/

/-- Source text of the `BasicModel` scenario from the test suite. -/
def c1Src : String :=
  "class BasicModel(BaseModel):\n    name: str\n    " ++ tripleDouble ++
  "The user name" ++ tripleDouble ++ "\n    age: int\n    " ++ tripleDouble ++
  "Age in years" ++ tripleDouble ++ "\n"

/-- The `BasicModel` class: two documented plain fields. -/
def c1Cls : ModelClass :=
  { nm := "BasicModel"
    fields := [("name", ⟨PyAnnot.plain "str", true⟩), ("age", ⟨PyAnnot.plain "int", true⟩)]
    src := some c1Src
    schemaProperties := [] }

/-- A class with a field annotated by a bare `typing.List`: `get_origin`
yields `list` while `get_args` yields no arguments. -/
def c2BadCls : ModelClass :=
  { nm := "Bad"
    fields := [("items", ⟨PyAnnot.generic PyOrigin.plist [], true⟩)]
    src := none
    schemaProperties := [] }

/-- A class whose annotations are all well formed. -/
def c2GoodCls : ModelClass :=
  { nm := "Person"
    fields := [("tags", ⟨PyAnnot.generic PyOrigin.plist [PyAnnot.plain "str"], false⟩),
               ("age", ⟨PyAnnot.plain "int", true⟩)]
    src := none
    schemaProperties := [] }

/-- Source where the earlier field `a` has a doc comment and the later
field `b` has none (and no triple quote of either kind follows `b`). -/
def c3Src : String :=
  "    a: int\n    " ++ tripleDouble ++ "Doc for a" ++ tripleDouble ++ "\n    b: str\n"

/-- A field declared `opt: Optional[str]` with no default: the annotation
is a union with `NoneType` but pydantic reports the field as required. -/
def c4fi : FieldInfo :=
  ⟨PyAnnot.generic PyOrigin.union [PyAnnot.plain "str", PyAnnot.noneType], true⟩

/-- A field declared `opt: Optional[str] = None`: same annotation, not
required. -/
def c4wfi : FieldInfo :=
  ⟨PyAnnot.generic PyOrigin.union [PyAnnot.plain "str", PyAnnot.noneType], false⟩

/-- A field schema declaring `maxLength` before `minLength` in insertion
order. -/
def c5fs : List (String × String) := [("maxLength", "50"), ("minLength", "2")]

/-- Schema properties for the single field `username`. -/
def c5props : List (String × List (String × String)) := [("username", c5fs)]

/-- Source whose only doc comment contains the word `Constraints`. -/
def c6Src : String :=
  "x: int\n" ++ tripleDouble ++ "Constraints apply here" ++ tripleDouble

/-- A class with no validation rules whose field doc comment contains the
word `Constraints`. -/
def c6Cls : ModelClass :=
  { nm := "Doc"
    fields := [("x", ⟨PyAnnot.plain "int", true⟩)]
    src := some c6Src
    schemaProperties := [] }

/-- Source with an unclosed triple-double-quote after the field, followed
by a closed triple-single-quote pair. -/
def c7Src : String :=
  "x: int\n" ++ tripleDouble ++ "\nmore\n" ++ tripleSingle ++ "doc7" ++ tripleSingle

/-- A second unclosed-double source, used by the amended-claim witness. -/
def c7wSrc : String :=
  "y: int\n" ++ tripleDouble ++ "\n" ++ tripleSingle ++ "w7" ++ tripleSingle

/-- A field annotated `Union[int, str, None]`. -/
def c9fi : FieldInfo :=
  ⟨PyAnnot.generic PyOrigin.union
    [PyAnnot.plain "int", PyAnnot.plain "str", PyAnnot.noneType], true⟩

/-- A field schema carrying only exclusive-bound keys, as produced by
`Field(gt=0, lt=10)`. -/
def c10fs : List (String × String) :=
  [("exclusiveMinimum", "0"), ("exclusiveMaximum", "10")]

/-- Schema properties for the single field `score`. -/
def c10props : List (String × List (String × String)) := [("score", c10fs)]

/-! Helper lemmas about `buildLines`. -/

theorem buildLines_length (f : α → Option β) :
    ∀ (l : List α) (ls : List β), buildLines f l = some ls → ls.length = l.length := by
  intro l
  induction l with
  | nil =>
    intro ls h
    simp only [buildLines, Option.some.injEq] at h
    simp [← h]
  | cons a as ih =>
    intro ls h
    cases hfa : f a with
    | none => simp [buildLines, hfa] at h
    | some b =>
      cases hbs : buildLines f as with
      | none => simp [buildLines, hfa, hbs] at h
      | some bs =>
        simp only [buildLines, hfa, hbs, Option.some.injEq] at h
        simp [← h, ih bs hbs]

theorem buildLines_get (f : α → Option β) :
    ∀ (l : List α) (ls : List β), buildLines f l = some ls →
    ∀ (i : Nat) (h1 : i < l.length) (h2 : i < ls.length),
      f (l.get ⟨i, h1⟩) = some (ls.get ⟨i, h2⟩) := by
  intro l
  induction l with
  | nil =>
    intro ls h i h1 h2
    exact absurd h1 (Nat.not_lt_zero i)
  | cons a as ih =>
    intro ls h i h1 h2
    cases hfa : f a with
    | none => simp [buildLines, hfa] at h
    | some b =>
      cases hbs : buildLines f as with
      | none => simp [buildLines, hfa, hbs] at h
      | some bs =>
        simp only [buildLines, hfa, hbs, Option.some.injEq] at h
        subst h
        cases i with
        | zero => simpa using hfa
        | succ n =>
          exact ih bs hbs n (Nat.lt_of_succ_lt_succ h1) (Nat.lt_of_succ_lt_succ h2)

theorem buildLines_isSome (f : α → Option β) :
    ∀ l : List α, (∀ a ∈ l, (f a).isSome) → (buildLines f l).isSome := by
  intro l
  induction l with
  | nil => intro _; simp [buildLines]
  | cons a as ih =>
    intro h
    have ha := h a (by simp)
    cases hfa : f a with
    | none => rw [hfa] at ha; simp at ha
    | some b =>
      have has := ih (fun x hx => h x (by simp [hx]))
      cases hbs : buildLines f as with
      | none => rw [hbs] at has; simp at has
      | some bs => simp [buildLines, hfa, hbs]

theorem buildLines_congr (f g : α → Option β) :
    ∀ l : List α, (∀ a ∈ l, f a = g a) → buildLines f l = buildLines g l := by
  intro l
  induction l with
  | nil => intro _; rfl
  | cons a as ih =>
    intro h
    simp only [buildLines]
    rw [h a (by simp), ih (fun x hx => h x (by simp [hx]))]

/-- For a field whose annotation is well formed, `_get_field_type_name`
returns a string (does not raise). -/
theorem get_field_type_name_isSome_of_wellFormed (fi : FieldInfo)
    (h : wellFormedAnn fi.ann = true) : (get_field_type_name fi).isSome := by
  unfold get_field_type_name
  unfold wellFormedAnn at h
  cases hu : unwrapOptional fi.ann with
  | plain nm => simp [tailName, isInstanceType]
  | noneType => simp [tailName, isInstanceType]
  | other s => simp [tailName, isInstanceType]
  | generic origin args =>
    rw [hu] at h
    replace h : (if (origin == PyOrigin.plist || pyEndsWith (originStr origin) "list") = true
        then !args.isEmpty
        else if (origin == PyOrigin.pdict || pyEndsWith (originStr origin) "dict") = true
        then decide (2 ≤ args.length) else true) = true := h
    simp only [tailName, isInstanceType, Bool.false_eq_true, if_false]
    cases hb1 : origin == PyOrigin.plist || pyEndsWith (originStr origin) "list" with
    | true =>
      rw [hb1] at h
      simp only [if_true] at h
      simp only [if_pos rfl]
      cases args with
      | nil => simp at h
      | cons a as => simp
    | false =>
      rw [hb1] at h
      simp only [Bool.false_eq_true, if_false] at h ⊢
      cases hb2 : origin == PyOrigin.pdict || pyEndsWith (originStr origin) "dict" with
      | true =>
        rw [hb2] at h
        simp only [if_true] at h
        simp only [if_pos rfl]
        cases args with
        | nil => simp at h
        | cons k rest =>
          cases rest with
          | nil => simp at h
          | cons v rest2 => simp
      | false =>
        rw [hb2] at h
        simp

/-- Claim C1: for every model class, `format_for_llm` returns the header
line `"<ClassName>:"` followed by exactly one line per declared field in
declaration order, the lines joined with newline characters and no
trailing newline (the join adds no trailing separator); a class with no
fields yields the header alone. -/
theorem format_for_llm_header_and_one_line_per_field
    (cls : ModelClass) (iv : Bool) (lns : List String)
    (h : buildLines
      (fun nf => formatFieldLine (if iv then cls.schemaProperties else [])
        iv cls.src nf.1 nf.2) cls.fields = some lns) :
    format_for_llm cls iv = some (String.intercalate "\n" ((cls.nm ++ ":") :: lns)) ∧
    lns.length = cls.fields.length ∧
    (∀ (i : Nat) (h1 : i < cls.fields.length) (h2 : i < lns.length),
      formatFieldLine (if iv then cls.schemaProperties else []) iv cls.src
        (cls.fields.get ⟨i, h1⟩).1 (cls.fields.get ⟨i, h1⟩).2 = some (lns.get ⟨i, h2⟩)) ∧
    (cls.fields = [] → format_for_llm cls iv = some (cls.nm ++ ":")) := by
  refine ⟨?_, buildLines_length _ _ _ h, buildLines_get _ _ _ h, ?_⟩
  · unfold format_for_llm
    rw [h]
  · intro hf
    unfold format_for_llm
    rw [hf]
    rfl

/-- Claim C1 witness: the `BasicModel` scenario of the test suite. -/
theorem format_for_llm_header_witness :
    format_for_llm c1Cls false =
      some "BasicModel:\n- name (str): The user name\n- age (int): Age in years" :=
  ((format_for_llm_header_and_one_line_per_field c1Cls false
    ["- name (str): The user name", "- age (int): Age in years"] rfl).1).trans rfl

/-- Claim C2 counterexample: a field annotated with a bare `typing.List`
(`get_origin` is `list`, `get_args` is empty) makes `_get_field_type_name`
evaluate `args[0]`, raising `IndexError` out of `format_for_llm`, so the
formatting operation does not return a string for this input. -/
theorem format_for_llm_raises_on_bare_list :
    format_for_llm c2BadCls false = none := rfl

/-- Claim C2 (amended): the formatting operation returns a string whenever
every field annotation is well formed (list-like origins carry at least
one type argument, dict-like origins at least two); unknown shapes other
than those argument-starved generics fall through to the string-form
fallback rather than raising. -/
theorem format_for_llm_total_on_wellformed (cls : ModelClass) (iv : Bool)
    (h : ∀ nf ∈ cls.fields, wellFormedAnn nf.2.ann = true) :
    (format_for_llm cls iv).isSome = true := by
  unfold format_for_llm
  have hb : (buildLines
      (fun nf => formatFieldLine (if iv then cls.schemaProperties else [])
        iv cls.src nf.1 nf.2) cls.fields).isSome := by
    apply buildLines_isSome
    intro nf hnf
    have hg := get_field_type_name_isSome_of_wellFormed nf.2 (h nf hnf)
    obtain ⟨tn, htn⟩ := Option.isSome_iff_exists.mp hg
    simp [formatFieldLine, htn]
  cases hres : buildLines
      (fun nf => formatFieldLine (if iv then cls.schemaProperties else [])
        iv cls.src nf.1 nf.2) cls.fields with
  | none => rw [hres] at hb; simp at hb
  | some lns => simp

/-- Claim C2 witness: a class with a parameterized list field and a plain
field formats to a string. -/
theorem format_for_llm_total_witness :
    (format_for_llm c2GoodCls false).isSome = true :=
  format_for_llm_total_on_wellformed c2GoodCls false (by decide)

/-- Claim C3: when the field declaration pattern is located at position `p`
and no triple-double-quote and no triple-single-quote occurs at or after
`p`, the extracted documentation is the empty string and no error is
raised (the extractor is total); doc comments of fields earlier in the
source lie before `p` and cannot interfere. -/
theorem no_quote_after_field_gives_empty_doc (source field_nm : String) (p : Nat)
    (hp : findFieldPos source field_nm = some p)
    (hd : pyFind source tripleDouble p = none)
    (hs : pyFind source tripleSingle p = none) :
    extract_field_docstring (some source) field_nm = "" := by
  simp only [extract_field_docstring, hp, searchQuotes, hd, hs]

/-- Claim C3 witness: in `c3Src` the earlier field `a` carries a doc
comment, the later field `b` (located at position 35) is followed by no
triple quote, and its documentation is empty. -/
theorem no_quote_after_field_witness :
    extract_field_docstring (some c3Src) "b" = "" :=
  no_quote_after_field_gives_empty_doc c3Src "b" 35 rfl rfl rfl

/-- Claim C4 counterexample: a field declared `opt: Optional[str]` with no
default is required in pydantic, so although its annotation is an
optional-of-str union the rendered line carries no `, optional` suffix. -/
theorem required_optional_annot_has_no_suffix :
    get_field_type_name c4fi = some "str" ∧
    formatFieldLine [] false none "opt" c4fi = some "- opt (str): " ∧
    pyContains "- opt (str): " ", optional" = false :=
  ⟨rfl, rfl, rfl⟩

/-- Claim C4 (amended): for a field whose annotation is a union containing
the none type whose first non-none member is the plain type `T`, the
rendered type name is `T`'s bare name; the `, optional` suffix appears iff
the field is not required (`field_info.is_required()`), which is
independent of the optional annotation, so required fields never carry
the suffix. -/
theorem optional_unwraps_and_suffix_iff_not_required
    (fi : FieldInfo) (args : List PyAnnot) (T : String)
    (hann : fi.ann = PyAnnot.generic PyOrigin.union args)
    (hnone : args.any isNoneAnnot = true)
    (hfst : args.find? (fun x => !isNoneAnnot x) = some (PyAnnot.plain T))
    (props : List (String × List (String × String))) (src : Option String)
    (nm : String) :
    get_field_type_name fi = some T ∧
    formatFieldLine props false src nm fi =
      some ("- " ++ nm ++ " (" ++ T ++ (if fi.required then "" else ", optional")
        ++ "): " ++ extract_field_docstring src nm) := by
  have h1 : get_field_type_name fi = some T := by
    unfold get_field_type_name unwrapOptional
    rw [hann]
    simp [hnone, hfst, tailName, isInstanceType, typeDunderName]
  refine ⟨h1, ?_⟩
  unfold formatFieldLine
  rw [h1]
  rfl

/-- Claim C4 witness: `opt: Optional[str] = None` is not required, renders
type `str`, and carries the suffix. -/
theorem optional_suffix_witness :
    formatFieldLine [] false none "opt" c4wfi = some "- opt (str, optional): " :=
  ((optional_unwraps_and_suffix_iff_not_required c4wfi
    [PyAnnot.plain "str", PyAnnot.noneType] "str" rfl rfl rfl [] none "opt").2).trans rfl

/-- Claim C5: a field schema with minimum-length 2 and maximum-length 50
(and none of the other recognized keys) renders, with validation on, the
suffix exactly `" [Constraints: min_length: 2, max_length: 50]"`, the
order following the fixed recognition list rather than the insertion
order of the schema (the hypotheses constrain only lookups, not order). -/
theorem constraints_min_max_fixed_order
    (fs : List (String × String)) (props : List (String × List (String × String)))
    (nm tn : String) (fi : FieldInfo) (src : Option String)
    (hfs : List.lookup nm props = some fs)
    (h1 : List.lookup "minLength" fs = some "2")
    (h2 : List.lookup "maxLength" fs = some "50")
    (h3 : List.lookup "minimum" fs = none)
    (h4 : List.lookup "maximum" fs = none)
    (h5 : List.lookup "pattern" fs = none)
    (ht : get_field_type_name fi = some tn) :
    renderConstraints fs = ["min_length: 2", "max_length: 50"] ∧
    formatFieldLine props true src nm fi =
      some (("- " ++ nm ++ " (" ++ tn ++ (if fi.required then "" else ", optional")
        ++ "): " ++ extract_field_docstring src nm)
        ++ " [Constraints: " ++ "min_length: 2, max_length: 50" ++ "]") := by
  have e1 : displayKey fs (toSnake "minLength") = "min_length" := rfl
  have e2 : displayKey fs (toSnake "maxLength") = "max_length" := rfl
  have hrc : renderConstraints fs = ["min_length: 2", "max_length: 50"] := by
    unfold renderConstraints
    simp only [List.filterMap_cons, List.filterMap_nil, h1, h2, h3, h4, h5, e1, e2]
    rfl
  refine ⟨hrc, ?_⟩
  unfold formatFieldLine
  rw [ht]
  dsimp only
  rw [hfs]
  dsimp only
  rw [hrc]
  rfl

/-- Claim C5 witness: the schema lists `maxLength` before `minLength`, yet
the rendered order is `min_length` first. -/
theorem constraints_min_max_witness :
    formatFieldLine c5props true none "username" ⟨PyAnnot.plain "str", true⟩ =
      some "- username (str):  [Constraints: min_length: 2, max_length: 50]" :=
  ((constraints_min_max_fixed_order c5fs c5props "username" "str"
    ⟨PyAnnot.plain "str", true⟩ none rfl rfl rfl rfl rfl rfl rfl).2).trans rfl

/-- Claim C6 counterexample: with validation rendering off, a class whose
field doc comment contains the word `Constraints` produces output
containing the substring `"Constraints"`, so the output does not avoid
that substring for every model class. -/
theorem constraints_substring_in_output_when_off :
    format_for_llm c6Cls false = some "Doc:\n- x (int): Constraints apply here" ∧
    pyContains "Doc:\n- x (int): Constraints apply here" "Constraints" = true :=
  ⟨rfl, rfl⟩

/-- Claim C6 (amended): with validation rendering off the formatter never
appends a constraints suffix — the output equals the same pipeline built
from lines with no constraints component — and the output is independent
of the declared validation schema; `"Constraints"` can therefore appear
only when it already occurs in the class name, a field name, a rendered
type name, or an extracted doc comment. -/
theorem validation_off_appends_no_constraints (cls : ModelClass)
    (P : List (String × List (String × String))) :
    format_for_llm cls false =
      (match buildLines (fun nf =>
          match get_field_type_name nf.2 with
          | none => none
          | some tn => some ("- " ++ nf.1 ++ " (" ++ tn
              ++ (if nf.2.required then "" else ", optional") ++ "): "
              ++ extract_field_docstring cls.src nf.1)) cls.fields with
        | none => none
        | some lns => some (String.intercalate "\n" ((cls.nm ++ ":") :: lns))) ∧
    format_for_llm { cls with schemaProperties := P } false = format_for_llm cls false := by
  constructor
  · unfold format_for_llm
    rw [buildLines_congr
      (fun nf => formatFieldLine (if false then cls.schemaProperties else [])
        false cls.src nf.1 nf.2)
      (fun nf =>
        match get_field_type_name nf.2 with
        | none => none
        | some tn => some ("- " ++ nf.1 ++ " (" ++ tn
            ++ (if nf.2.required then "" else ", optional") ++ "): "
            ++ extract_field_docstring cls.src nf.1))
      cls.fields
      (fun nf _ => by
        unfold formatFieldLine
        cases get_field_type_name nf.2 <;> rfl)]
  · rfl

/-- Claim C7 counterexample: in `c7Src` the triple-double-quote after the
field is unclosed, yet the extractor returns the content of the following
triple-single-quote pair rather than the empty string. -/
theorem unclosed_double_falls_through_to_single :
    extract_field_docstring (some c7Src) "x" = "doc7" ∧ "doc7" ≠ "" :=
  ⟨rfl, by decide⟩

/-- Claim C7 (amended): the extractor searches for a triple-double-quote
delimiter first; when one is found at `i` but no closing occurrence of the
same kind follows, it does not return the empty string but falls through
to the triple-single-quote search (from the field position), returning
empty only if that also fails. -/
theorem unclosed_double_then_single_search (source field_nm : String) (p i : Nat)
    (hp : findFieldPos source field_nm = some p)
    (hi : pyFind source tripleDouble p = some i)
    (hj : pyFind source tripleDouble (i + 3) = none) :
    extract_field_docstring (some source) field_nm =
      searchQuotes source p [tripleSingle] := by
  simp only [extract_field_docstring, hp]
  conv_lhs => rw [searchQuotes]
  rw [hi]
  dsimp only
  rw [hj]

/-- Claim C7 witness: in `c7wSrc` the double-quote delimiter at 7 is
unclosed and the single-quote pair yields `w7`. -/
theorem unclosed_double_witness :
    extract_field_docstring (some c7wSrc) "y" = "w7" :=
  (unclosed_double_then_single_search c7wSrc "y" 0 7 rfl rfl rfl).trans rfl

/-- Claim C8: applying `llm_documented` twice is idempotent — the second
application fully replaces the first (whatever attribute was present is
overwritten), the model data is untouched, and calling `format_for_llm`
after two applications gives exactly the single-application output. -/
theorem llm_documented_idempotent (c : PyClass) (iv : Bool) :
    llm_documented (llm_documented c) = llm_documented c ∧
    (llm_documented c).model = c.model ∧
    (∀ g, llm_documented { c with format_attr := g } = llm_documented c) ∧
    callFormat (llm_documented (llm_documented c)) iv = callFormat (llm_documented c) iv :=
  ⟨rfl, rfl, fun _ => rfl, rfl⟩

/-- Claim C9: for a union annotation containing the none type and at least
two non-none members, `_get_field_type_name` unwraps to the first non-none
member in argument order and the result depends only on that member — the
remaining members are discarded. -/
theorem union_unwraps_to_first_non_none
    (fi : FieldInfo) (args : List PyAnnot) (t : PyAnnot)
    (hann : fi.ann = PyAnnot.generic PyOrigin.union args)
    (hnone : args.any isNoneAnnot = true)
    (htwo : 2 ≤ (args.filter (fun x => !isNoneAnnot x)).length)
    (hfst : args.find? (fun x => !isNoneAnnot x) = some t) :
    get_field_type_name fi = tailName t := by
  unfold get_field_type_name unwrapOptional
  rw [hann]
  simp [hnone, hfst]

/-- Claim C9 witness: `Union[int, str, None]` renders as `int`; `str` is
discarded. -/
theorem union_first_non_none_witness : get_field_type_name c9fi = some "int" :=
  (union_unwraps_to_first_non_none c9fi
    [PyAnnot.plain "int", PyAnnot.plain "str", PyAnnot.noneType]
    (PyAnnot.plain "int") rfl rfl (by decide) rfl).trans rfl

/-- Claim C10: for a field schema containing none of the five recognized
keys (`minLength`, `maxLength`, `minimum`, `maximum`, `pattern`) — in
particular one carrying only `exclusiveMinimum`/`exclusiveMaximum` as
produced by strict bounds — the formatter with validation on emits the
field line with no constraints suffix at all. -/
theorem exclusive_bounds_never_rendered
    (fs : List (String × String)) (props : List (String × List (String × String)))
    (nm tn : String) (fi : FieldInfo) (src : Option String)
    (hfs : List.lookup nm props = some fs)
    (h : ∀ k ∈ (["minLength", "maxLength", "minimum", "maximum", "pattern"] : List String),
      List.lookup k fs = none)
    (ht : get_field_type_name fi = some tn) :
    renderConstraints fs = [] ∧
    formatFieldLine props true src nm fi =
      some ("- " ++ nm ++ " (" ++ tn ++ (if fi.required then "" else ", optional")
        ++ "): " ++ extract_field_docstring src nm) := by
  have h1 := h "minLength" (by simp)
  have h2 := h "maxLength" (by simp)
  have h3 := h "minimum" (by simp)
  have h4 := h "maximum" (by simp)
  have h5 := h "pattern" (by simp)
  have hrc : renderConstraints fs = [] := by
    unfold renderConstraints
    simp only [List.filterMap_cons, List.filterMap_nil, h1, h2, h3, h4, h5]
  refine ⟨hrc, ?_⟩
  unfold formatFieldLine
  rw [ht]
  dsimp only
  rw [hfs]
  dsimp only
  rw [hrc]
  rfl

/-- Claim C10 witness: a schema with only exclusive bounds yields a field
line with no constraints suffix. -/
theorem exclusive_bounds_witness :
    formatFieldLine c10props true none "score" ⟨PyAnnot.plain "int", true⟩ =
      some "- score (int): " :=
  ((exclusive_bounds_never_rendered c10fs c10props "score" "int"
    ⟨PyAnnot.plain "int", true⟩ none rfl (by decide) rfl).2).trans rfl
